import Mathlib

/-!
Shallow embedding of the core logic of `imageboard-downloader-rs`.

The pure parts of the Rust source are translated to Lean functions; the
effectful parts (file system, network, counters) are modelled by explicit
state passing.  Source locations are given for each definition.
-/

namespace ImageboardDownloader

/-- Rating of a post.  The variants are the ones documented on the
`Post.rating` field in `src/src/imageboards/post/mod.rs` (the module file
`post/rating.rs` declared by `pub mod rating` is not part of the sources):
`Safe`, `Questionable`, `Explicit`, `Unknown`. -/
inductive Rating
  | safe
  | questionable
  | explicit
  | unknown
  deriving DecidableEq, Repr

/-- `Post` from `src/src/imageboards/post/mod.rs`.  The tag set
(`AHashSet<String>`) is modelled as a list of strings; only membership is
ever used on it. -/
structure Post where
  id : Nat
  url : String
  md5 : String
  extension : String
  rating : Rating
  tags : List String
  deriving DecidableEq, Repr

/-- `ImageBoards` from `src/src/imageboards/mod.rs`. -/
inductive ImageBoards
  | danbooru
  | e621
  | rule34
  | realbooru
  | konachan
  | gelbooru
  deriving DecidableEq, Repr

/-- `BlacklistCategories` from `src/src/imageboards/queue/blacklist.rs`
(the parsed `[blacklist]` table of `blacklist.toml`). -/
structure BlacklistCategories where
  global : List String
  danbooru : List String
  e621 : List String
  realbooru : List String
  rule34 : List String
  gelbooru : List String
  konachan : List String
  deriving DecidableEq, Repr

/-- `GlobalBlacklist` from `src/src/imageboards/queue/blacklist.rs`. -/
structure GlobalBlacklist where
  blacklist : Option BlacklistCategories
  deriving DecidableEq, Repr

/-- The `match self.imageboard` table inside `Queue::blacklist_filter`
(`src/src/imageboards/queue/mod.rs`, lines 148-155). -/
def specialTags (tags : BlacklistCategories) : ImageBoards → List String
  | .danbooru => tags.danbooru
  | .e621 => tags.e621
  | .rule34 => tags.rule34
  | .realbooru => tags.realbooru
  | .konachan => tags.konachan
  | .gelbooru => tags.gelbooru

/-- The retain predicate `c.tags.iter().any(|s| blacklist.contains(s))`
used by every retain call in `Queue::blacklist_filter`. -/
def postMatches (bl : List String) (c : Post) : Bool :=
  c.tags.any (fun s => bl.contains s)

/-- One conditional retain pass of `Queue::blacklist_filter`
(`src/src/imageboards/queue/mod.rs`): when `cond` holds, keep the posts
satisfying `p` and add `fsize - new length` to the removed counter, where
`fsize` is the length before the pass; otherwise leave the state alone.
All three passes of the source (user, global, per-site) have exactly this
shape. -/
def condFilterStep (cond : Bool) (p : Post → Bool) (st : Nat × List Post) :
    Nat × List Post :=
  if cond then
    (st.1 + (st.2.length - (st.2.filter p).length), st.2.filter p)
  else st

/-- The three retain passes of `Queue::blacklist_filter`
(`src/src/imageboards/queue/mod.rs`, lines 117-168): user blacklist, then
— when the loaded `blacklist.toml` has a `[blacklist]` table — the global
tier and the per-site tier. -/
def blacklist_filter_steps (user_blacklist : List String)
    (gbl : GlobalBlacklist) (imageboard : ImageBoards) (list : List Post) :
    Nat × List Post :=
  let s1 := condFilterStep (! user_blacklist.isEmpty)
    (fun c => ! postMatches user_blacklist c) (0, list)
  match gbl.blacklist with
  | none => s1
  | some tags =>
    let s2 := condFilterStep (! tags.global.isEmpty)
      (fun c => ! postMatches tags.global c) s1
    condFilterStep (! (specialTags tags imageboard).isEmpty)
      (fun c => ! postMatches (specialTags tags imageboard) c) s2

/-- `Queue::blacklist_filter` (`src/src/imageboards/queue/mod.rs`, lines
111-174), with the effectful inputs made explicit: `user_blacklist` is the
`self.user_blacklist` field and `gbl` is the successfully loaded
`GlobalBlacklist::get()` result (a load failure aborts the caller before
any filtering and is outside this function's behaviour).  Returns the
removed count together with the retained list (`self.list` after the
call). -/
def blacklist_filter (disable : Bool) (user_blacklist : List String)
    (gbl : GlobalBlacklist) (imageboard : ImageBoards) (list : List Post) :
    Nat × List Post :=
  if disable then (0, list)
  else blacklist_filter_steps user_blacklist gbl imageboard list

/-- Outcome of decoding a persisted binary blob (`zstd::decode_all` then
`bincode::deserialize`): either the decoded `Post`, or a failure at either
stage (`src/src/main.rs`, lines 186-192). -/
inductive DecodeResult
  | ok (post : Post)
  | fail
  deriving DecidableEq, Repr

/-- The on-disk resume-marker file `.00_download_summary.bin`
(`src/src/main.rs`): whether `tgs.exists()` holds, and what decoding its
content yields. -/
structure MarkerFile where
  present : Bool
  decode : DecodeResult
  deriving DecidableEq, Repr

/-- `post_queue.posts.iter().max_by_key(|post| post.id)` from
`src/src/main.rs`, lines 164-169.  Rust's `max_by_key` returns the last
of several equally maximal elements, hence `q.id ≤ p.id` takes the later
one. -/
def max_by_key : List Post → Option Post :=
  List.foldl
    (fun acc p =>
      match acc with
      | none => some p
      | some q => if q.id ≤ p.id then some p else some q)
    none

/-- How the run in `src/src/main.rs` continues after extraction. -/
inductive MainOutcome
  | panicked
  | errored
  | noPostsExit
  | proceed (queue : List Post) (last_post : Post)
  deriving DecidableEq, Repr

/-- Outcome of the post-extraction part of `main`, together with whether
the `remove_file(&tgs)` recovery line for a corrupted summary ran. -/
structure MainResult where
  outcome : MainOutcome
  markerDeleted : Bool
  deriving DecidableEq, Repr

/-- Lines 164-204 of `src/src/main.rs`.  `posts` is the extracted
`post_queue.posts`, `update` is `args.update`, `marker` the state of the
summary file.

- An empty queue makes `.max_by_key(...).unwrap()` panic (`unwrap` of
  `None`), modelled as `MainOutcome.panicked`.
- The marker is read inside a plain block,
  `let last_post_downloaded: Result<Post, Error> = { File::open(&tgs)?;
  deserialize(&decode_all(dsum)?)?; ... }`; each `?` returns from `main`
  itself, so a decode failure aborts `main` with an error
  (`MainOutcome.errored`).  As a consequence the
  `if let Ok(post) ... else { remove_file(&tgs) }` fallback can only see
  `Ok`, and the recovery branch never runs (`markerDeleted` stays
  `false`).
- Otherwise the queue is retained to `c.id > post.id` and an empty result
  prints "No posts left to download!" and returns `Ok(())`
  (`MainOutcome.noPostsExit`). -/
def mainAfterExtract (posts : List Post) (update : Bool)
    (marker : MarkerFile) : MainResult :=
  match max_by_key posts with
  | none => { outcome := .panicked, markerDeleted := false }
  | some last_post =>
    if update && marker.present then
      match marker.decode with
      | .fail => { outcome := .errored, markerDeleted := false }
      | .ok post =>
        let retained := posts.filter (fun c => post.id < c.id)
        if retained.isEmpty then
          { outcome := .noPostsExit, markerDeleted := false }
        else
          { outcome := .proceed retained last_post, markerDeleted := false }
    else
      if posts.isEmpty then
        { outcome := .noPostsExit, markerDeleted := false }
      else
        { outcome := .proceed posts last_post, markerDeleted := false }

/-- `ImageboardConfig` (from the `auth` module referenced by
`src/src/imageboards/mod.rs`; only treated as an opaque payload here, the
fields follow the debug prints of `read_config_from_fs`). -/
structure ImageboardConfig where
  username : String
  api_key : String
  user_id : Nat
  name : String
  blacklisted_tags : List String
  deriving DecidableEq, Repr

/-- State of the credential-cache file read by
`ImageBoards::read_config_from_fs`: absent, present but failing
`zstd::decode_all`, present but failing `bincode::deserialize`, or fully
valid. -/
inductive CacheFileState
  | missing
  | badCompressed
  | badSerialized
  | valid (cfg : ImageboardConfig)
  deriving DecidableEq, Repr

/-- `ImageBoards::read_config_from_fs` (`src/src/imageboards/mod.rs`,
lines 165-198), with directory creation and file deletion modelled as
succeeding.  Returns the `Ok` payload of the function together with
whether the cache file was deleted: a missing file and a deserialization
failure yield `None`; a decompression failure deletes the stale file and
yields `None`; every path returns `Ok`. -/
def read_config_from_fs (file : CacheFileState) :
    Except Unit (Option ImageboardConfig) × Bool :=
  match file with
  | .missing => (.ok none, false)
  | .badCompressed => (.ok none, true)
  | .badSerialized => (.ok none, false)
  | .valid cfg => (.ok (some cfg), false)

/-- A concrete post used to evaluate the embedded `main` logic. -/
def examplePost : Post :=
  { id := 10, url := "https://example.invalid/f.png", md5 := "d41d8cd9"
    extension := "png", rating := .safe, tags := ["umbreon"] }

/-- The three run counters of `ProgressCounter`
(`src/src/progress_bars.rs` is CLI glue; the counters used by
`src/src/imageboards/post/mod.rs` are the main progress position
`counters.main`, the mutex-guarded `total_mtx` and `downloaded_mtx`). -/
structure Counters where
  main : Nat
  total : Nat
  downloaded : Nat
  deriving DecidableEq, Repr

/-- A network response as observed by `Post::fetch`: the HTTP status code
and the streamed body (the chunk stream is modelled as one successfully
delivered body). -/
structure NetResponse where
  status : Nat
  body : String
  deriving DecidableEq, Repr

/-- `res.status().is_client_error()`: a 4xx status. -/
def isClientError (status : Nat) : Bool :=
  400 ≤ status && status < 500

/-- Download-time state threaded through the per-post routines: the
destination directory's files (path ↦ content), the run counters, and the
list of URLs for which a network request was issued. -/
structure DlState where
  files : List (String × String)
  counters : Counters
  fetched : List String
  deriving DecidableEq, Repr

/-- `tokio::fs::remove_file` on the modelled directory. -/
def removeFile (files : List (String × String)) (path : String) :
    List (String × String) :=
  files.filter (fun e => decide (e.1 ≠ path))

/-- The loose-mode destination write of `Post::fetch`
(`OpenOptions::new().append(true).create(true)` followed by chunk
writes): append to an existing file, create it otherwise. -/
def appendFile (files : List (String × String)) (path body : String) :
    List (String × String) :=
  match files.lookup path with
  | some _ => files.map (fun e => if e.1 = path then (e.1, e.2 ++ body) else e)
  | none => files ++ [(path, body)]

/-- The destination file name `format!("{}.{}", name, ext)` computed at
the top of `Post::get` (`src/src/imageboards/post/mod.rs`, lines
106-111). -/
def outputName (self : Post) (name_id : Bool) : String :=
  (if name_id then toString self.id else self.md5) ++ "." ++ self.extension

/-- `Post::check_file_exists` (`src/src/imageboards/post/mod.rs`, lines
122-160).  `hash` models `md5::compute` over the file content read from
disk.  If the destination exists and its hash equals `self.md5`, the main
and total counters are bumped and the routine bails (`Err`); if it exists
with a different hash the stale file is removed and the routine returns
`Ok`; a missing file returns `Ok`.  The user-facing printouts are
dropped. -/
def Post.check_file_exists (self : Post) (hash : String → String)
    (output : String) (st : DlState) : Except Unit Unit × DlState :=
  match st.files.lookup output with
  | some content =>
    if hash content = self.md5 then
      (.error (),
        { st with counters :=
            { st.counters with
              main := st.counters.main + 1
              total := st.counters.total + 1 } })
    else
      (.ok (), { st with files := removeFile st.files output })
  | none => (.ok (), st)

/-- `Post::fetch` (`src/src/imageboards/post/mod.rs`, lines 162-265) in
loose mode (`zip == None`): issue the request (recorded in `fetched`); a
client-error (4xx) status bumps only the main counter and bails; any
other response streams the body into the destination file and bumps
main, total and downloaded. -/
def Post.fetch (self : Post) (net : String → NetResponse)
    (output : String) (st : DlState) : Except Unit Unit × DlState :=
  let res := net self.url
  let st := { st with fetched := st.fetched ++ [self.url] }
  if isClientError res.status then
    (.error (),
      { st with counters := { st.counters with main := st.counters.main + 1 } })
  else
    let st := { st with files := appendFile st.files output res.body }
    (.ok (),
      { st with counters :=
          { st.counters with
            main := st.counters.main + 1
            total := st.counters.total + 1
            downloaded := st.counters.downloaded + 1 } })

/-- `Post::get` (`src/src/imageboards/post/mod.rs`, lines 97-120) in
loose mode: compute the destination, run `check_file_exists`, and fetch
only when it returned `Ok`; when it bailed, `get` itself returns
`Ok(())`. -/
def Post.get (self : Post) (net : String → NetResponse)
    (hash : String → String) (outputDir : String) (name_id : Bool)
    (st : DlState) : Except Unit Unit × DlState :=
  let output := outputDir ++ "/" ++ outputName self name_id
  match self.check_file_exists hash output st with
  | (.ok _, st') => self.fetch net output st'
  | (.error _, st') => (.ok (), st')

/-- The loose-mode fan-out of `Queue::download`
(`src/src/imageboards/queue/mod.rs`, lines 267-281):
`futures::stream::iter(&self.list).map(|d| d.get(...))
.buffer_unordered(n).collect::<Vec<_>>()` — every per-post result is
collected and discarded, so `download` returns `Ok` regardless of
individual failures.  The bounded-concurrency interleaving is modelled as
a sequential fold in admission order; each post touches a distinct
destination, so the final counter and file-system values agree with any
interleaving. -/
def Queue.download_loose (net : String → NetResponse)
    (hash : String → String) (posts : List Post) (outputDir : String)
    (name_id : Bool) (st : DlState) : DlState :=
  posts.foldl (fun st p => (p.get net hash outputDir name_id st).2) st

/-- A second concrete post whose URL the modelled network answers with
HTTP 404. -/
def notFoundPost : Post :=
  { id := 11, url := "https://example.invalid/gone.png", md5 := "ffffffff"
    extension := "png", rating := .safe, tags := ["espeon"] }

/-- The order used by `fvec.sort()` on posts: `Ord for Post` compares by
`id` alone (`src/src/imageboards/post/mod.rs`, lines 75-93; the spec's
shared `Post` type likewise sorts by `id` only). -/
def postIdLe (a b : Post) : Prop :=
  a.id ≤ b.id

instance : DecidableRel postIdLe :=
  fun a b => Nat.decLe a.id b.id

instance : IsTotal Post postIdLe :=
  ⟨fun a b => Nat.le_total a.id b.id⟩

instance : IsTrans Post postIdLe :=
  ⟨fun _ _ _ h1 h2 => Nat.le_trans h1 h2⟩

/-- `if let Some(num) = limit { if fvec.len() >= num { break } }` — the
limit check shared by the pagination loops. -/
def limitReached (limit : Option Nat) (len : Nat) : Bool :=
  match limit with
  | some num => decide (num ≤ len)
  | none => false

/-- `let position = if let Some(n) = start_page { page + n } else { page }`
shared by the Danbooru and E621 pagination loops. -/
def pagePosition (start_page : Option Nat) (page : Nat) : Nat :=
  match start_page with
  | some n => page + n
  | none => page

/-- The Gelbooru variant: `page + n - 1` / `page - 1`
(`src/src/imageboards/extractors/gelbooru/mod.rs`, lines 100-104). -/
def gelbooruPagePosition (start_page : Option Nat) (page : Nat) : Nat :=
  match start_page with
  | some n => page + n - 1
  | none => page - 1

/-- The pagination loop of `DanbooruExtractor::full_search`
(`src/ibdl-extractors/src/websites/danbooru/mod.rs`, lines 109-149).
`fetch` models `Self::get_post_list` per page position, `filt` the
`BlacklistFilter::filter` call (its implementation lives in the external
`ibdl-extractors` blacklist module), and `useFilter` the condition
`!self.disable_blacklist || self.safe_mode`.  Returns the accumulated
posts, the total removed count, and the number of page fetches
performed.  The loop has no structural fuel in Rust; `fuel` makes the
recursion well-founded and the page-cap theorems hold for every fuel. -/
def danbooru_full_search_loop (fetch : Nat → List Post)
    (filt : List Post → Nat × List Post) (useFilter : Bool)
    (start_page limit : Option Nat) (page : Nat) (fvec : List Post)
    (removed pages : Nat) : Nat → List Post × Nat × Nat
  | 0 => (fvec, removed, pages)
  | fuel + 1 =>
    let posts := fetch (pagePosition start_page page)
    let pages := pages + 1
    if posts.length = 0 then (fvec, removed, pages)
    else
      let rl := if useFilter then filt posts else (0, posts)
      let removed := removed + rl.1
      let fvec := fvec ++ rl.2
      if limitReached limit fvec.length then (fvec, removed, pages)
      else if page = 100 then (fvec, removed, pages)
      else
        danbooru_full_search_loop fetch filt useFilter start_page limit
          (page + 1) fvec removed pages fuel

/-- `DanbooruExtractor::full_search`
(`src/ibdl-extractors/src/websites/danbooru/mod.rs`, lines 88-159): run
the pagination loop from page 1, then `fvec.sort()` (stable, ascending by
`id`) and `fvec.reverse()`.  The fuel 100 never binds: the loop breaks at
`page == 100` first. -/
def DanbooruExtractor.full_search (fetch : Nat → List Post)
    (filt : List Post → Nat × List Post) (useFilter : Bool)
    (start_page limit : Option Nat) : List Post × Nat × Nat :=
  let r := danbooru_full_search_loop fetch filt useFilter start_page limit
    1 [] 0 0 100
  ((List.insertionSort postIdLe r.1).reverse, r.2.1, r.2.2)

/-- The pagination loop of the legacy `GelbooruExtractor::full_search`
(`src/src/imageboards/extractors/gelbooru/mod.rs`, lines 88-141):
accumulates pages in fetch order and never sorts; also breaks when a page
is shorter than the imageboard's `max_post_limit`. -/
def gelbooru_full_search_loop (fetch : Nat → List Post)
    (maxPostLimit : Nat) (start_page limit : Option Nat) (page : Nat)
    (fvec : List Post) (pages : Nat) : Nat → List Post × Nat
  | 0 => (fvec, pages)
  | fuel + 1 =>
    let posts := fetch (gelbooruPagePosition start_page page)
    let pages := pages + 1
    if posts.length = 0 then (fvec, pages)
    else
      let fvec := fvec ++ posts
      if limitReached limit fvec.length then (fvec, pages)
      else if posts.length < maxPostLimit ∨ page = 100 then (fvec, pages)
      else
        gelbooru_full_search_loop fetch maxPostLimit start_page limit
          (page + 1) fvec pages fuel

/-- The legacy `GelbooruExtractor::full_search`
(`src/src/imageboards/extractors/gelbooru/mod.rs`): the loop result is
returned as the `PostQueue` posts, with no sorting step. -/
def GelbooruExtractor.full_search (fetch : Nat → List Post)
    (maxPostLimit : Nat) (start_page limit : Option Nat) :
    List Post × Nat :=
  gelbooru_full_search_loop fetch maxPostLimit start_page limit 1 [] 0 100

/-- The `for i in list.iter_mut()` send loop of `E621Extractor::async_fetch`
(`src/ibdl-extractors/src/websites/e621/unsync.rs`, lines 103-121): break
once the limit is hit, remap the id through the pool index when a pool is
selected, send the post and count it. -/
def e621_send_posts (limit : Option Nat) (pool : Option (Nat → Nat)) :
    List Post → List Post → Nat → List Post × Nat
  | [], sent, total_sent => (sent, total_sent)
  | i :: rest, sent, total_sent =>
    if limitReached limit total_sent then (sent, total_sent)
    else
      let i :=
        match pool with
        | some idxs => { i with id := idxs i.id }
        | none => i
      e621_send_posts limit pool rest (sent ++ [i]) (total_sent + 1)

/-- Result of the embedded `E621Extractor::async_fetch`: the posts sent
over the channel, the removed count, the number of page fetches, and
whether the call ended in `Err(ZeroPosts)`. -/
structure E621FetchResult where
  sent : List Post
  total_removed : Nat
  pages : Nat
  result : Except Unit Unit
  deriving Repr

/-- The pagination loop of `E621Extractor::async_fetch`
(`src/ibdl-extractors/src/websites/e621/unsync.rs`, lines 73-139).
`useFilter` is `!self.disable_blacklist || !self.download_ratings.is_empty()`. -/
def e621_async_fetch_loop (fetch : Nat → List Post)
    (filt : List Post → Nat × List Post) (useFilter : Bool)
    (pool : Option (Nat → Nat)) (start_page limit : Option Nat)
    (page : Nat) (has_posts : Bool) (total_sent : Nat) (sent : List Post)
    (removed pages : Nat) : Nat → E621FetchResult
  | 0 => ⟨sent, removed, pages, .ok ()⟩
  | fuel + 1 =>
    let posts := fetch (pagePosition start_page page)
    let pages := pages + 1
    if posts.length = 0 then
      if !has_posts then ⟨sent, removed, pages, .error ()⟩
      else ⟨sent, removed, pages, .ok ()⟩
    else
      let rl := if useFilter then filt posts else (0, posts)
      let removed := removed + rl.1
      let has_posts := if !has_posts && !rl.2.isEmpty then true else has_posts
      let ts := e621_send_posts limit pool rl.2 sent total_sent
      let sent := ts.1
      let total_sent := ts.2
      if limitReached limit total_sent then ⟨sent, removed, pages, .ok ()⟩
      else if page = 100 then ⟨sent, removed, pages, .ok ()⟩
      else
        e621_async_fetch_loop fetch filt useFilter pool start_page limit
          (page + 1) has_posts total_sent sent removed pages fuel

/-- A raw Danbooru JSON item as consumed by
`DanbooruExtractor::get_post_list`
(`src/ibdl-extractors/src/websites/danbooru/mod.rs`, lines 227-286): the
fields the mapping reads, with `file_url` optional since items lacking it
are filtered out. -/
structure DanbooruRawItem where
  id : Nat
  md5 : String
  file_url : Option String
  file_ext : String
  tag_string : List String
  rating : String
  deriving DecidableEq, Repr

/-- The per-item mapping closure of `DanbooruExtractor::get_post_list`
(lines 256-278): collect the tags, and map the raw rating string with the
special case `rt == "s" => Rating::Questionable`, every other string
through the generic parser `Rating::from_str` (which lives in the
external `ibdl_common` crate and is taken as the parameter `from_str`).
`file_url` is unwrapped; the surrounding filter guarantees it is
present. -/
def danbooru_map_item (from_str : String → Rating) (c : DanbooruRawItem) :
    Post :=
  let rt := c.rating
  let rating := if rt = "s" then Rating.questionable else from_str rt
  { id := c.id
    md5 := c.md5
    url := c.file_url.getD ""
    extension := c.file_ext
    tags := c.tag_string
    rating := rating }

/-- The item pipeline of `DanbooruExtractor::get_post_list`: keep the
items with a `file_url`, map each with the closure above. -/
def danbooru_get_post_list (from_str : String → Rating)
    (arr : List DanbooruRawItem) : List Post :=
  (arr.filter (fun c => c.file_url.isSome)).map (danbooru_map_item from_str)

/-- The PostQueue ordering invariant exactly as the spec words it: all
`id` values distinct and the sequence strictly descending — stated as a
single pairwise strict descent, which holds iff both of the spec's
conjuncts do. -/
def strictlyDescendingById (l : List Post) : Prop :=
  List.Pairwise (fun a b => b.id < a.id) l

/-- Two posts in ascending id order, returned as one Gelbooru page. -/
def lowPost : Post :=
  { id := 1, url := "https://example.invalid/1.png", md5 := "aa"
    extension := "png", rating := .safe, tags := ["a"] }

/-- See `lowPost`. -/
def highPost : Post :=
  { id := 2, url := "https://example.invalid/2.png", md5 := "bb"
    extension := "png", rating := .safe, tags := ["b"] }

/-- A raw item carrying the Danbooru rating string "s". -/
def rawItemS : DanbooruRawItem :=
  { id := 7, md5 := "cc", file_url := some "https://example.invalid/7.png"
    file_ext := "png", tag_string := ["umbreon"], rating := "s" }

theorem condFilterStep_count (cond : Bool) (p : Post → Bool)
    (st : Nat × List Post) :
    (condFilterStep cond p st).1 + (condFilterStep cond p st).2.length =
      st.1 + st.2.length := by
  unfold condFilterStep
  split
  · have h := List.length_filter_le p st.2
    simp only
    omega
  · rfl

theorem condFilterStep_count_inv (cond : Bool) (p : Post → Bool)
    (st : Nat × List Post) (K : Nat) (h : st.1 + st.2.length = K) :
    (condFilterStep cond p st).1 + (condFilterStep cond p st).2.length = K := by
  rw [condFilterStep_count]
  exact h

theorem condFilterStep_sublist (cond : Bool) (p : Post → Bool)
    (st : Nat × List Post) :
    (condFilterStep cond p st).2.Sublist st.2 := by
  unfold condFilterStep
  split
  · exact List.filter_sublist st.2
  · exact List.Sublist.refl st.2

theorem condFilterStep_mem (cond : Bool) (p : Post → Bool)
    (st : Nat × List Post) (x : Post)
    (hx : x ∈ (condFilterStep cond p st).2) :
    x ∈ st.2 ∧ (cond = true → p x = true) := by
  unfold condFilterStep at hx
  cases cond with
  | true =>
    simp only [if_true] at hx
    exact ⟨List.mem_of_mem_filter hx, fun _ => List.of_mem_filter hx⟩
  | false =>
    simp only [Bool.false_eq_true, if_false] at hx
    exact ⟨hx, by simp⟩

theorem condFilterStep_fixed (cond : Bool) (p : Post → Bool) (n : Nat)
    (l : List Post) (h : cond = true → ∀ x ∈ l, p x = true) :
    condFilterStep cond p (n, l) = (n, l) := by
  unfold condFilterStep
  cases cond with
  | true =>
    have hf : l.filter p = l := List.filter_eq_self.mpr (h rfl)
    simp [hf]
  | false => simp

theorem blacklist_filter_steps_count (user_blacklist : List String)
    (gbl : GlobalBlacklist) (imageboard : ImageBoards) (list : List Post) :
    (blacklist_filter_steps user_blacklist gbl imageboard list).1 +
      (blacklist_filter_steps user_blacklist gbl imageboard list).2.length =
      list.length := by
  obtain ⟨ob⟩ := gbl
  cases ob with
  | none =>
    exact condFilterStep_count_inv _ _ _ _ (Nat.zero_add list.length)
  | some tags =>
    exact condFilterStep_count_inv _ _ _ _ (condFilterStep_count_inv _ _ _ _
      (condFilterStep_count_inv _ _ _ _ (Nat.zero_add list.length)))

theorem blacklist_filter_steps_sublist (user_blacklist : List String)
    (gbl : GlobalBlacklist) (imageboard : ImageBoards) (list : List Post) :
    (blacklist_filter_steps user_blacklist gbl imageboard list).2.Sublist
      list := by
  obtain ⟨ob⟩ := gbl
  cases ob with
  | none =>
    exact condFilterStep_sublist _ _ (0, list)
  | some tags =>
    exact ((condFilterStep_sublist _ _ _).trans
      (condFilterStep_sublist _ _ _)).trans (condFilterStep_sublist _ _ _)

/-- C1: for every blacklist-filter call, removed + |retained| = |input|,
and the retained posts are a sublist of the input (same relative order). -/
theorem blacklist_filter_partition (disable : Bool)
    (user_blacklist : List String) (gbl : GlobalBlacklist)
    (imageboard : ImageBoards) (list : List Post) :
    (blacklist_filter disable user_blacklist gbl imageboard list).1 +
        (blacklist_filter disable user_blacklist gbl imageboard list).2.length =
        list.length ∧
      (blacklist_filter disable user_blacklist gbl imageboard list).2.Sublist
        list := by
  cases disable with
  | true => simp [blacklist_filter]
  | false =>
    simp only [blacklist_filter, Bool.false_eq_true, if_false]
    exact ⟨blacklist_filter_steps_count user_blacklist gbl imageboard list,
      blacklist_filter_steps_sublist user_blacklist gbl imageboard list⟩

theorem blacklist_filter_steps_idem (user_blacklist : List String)
    (gbl : GlobalBlacklist) (imageboard : ImageBoards) (list : List Post) :
    blacklist_filter_steps user_blacklist gbl imageboard
        (blacklist_filter_steps user_blacklist gbl imageboard list).2 =
      (0, (blacklist_filter_steps user_blacklist gbl imageboard list).2) := by
  obtain ⟨ob⟩ := gbl
  cases ob with
  | none =>
    simp only [blacklist_filter_steps]
    apply condFilterStep_fixed
    intro hc x hx
    exact (condFilterStep_mem (! user_blacklist.isEmpty)
      (fun c => ! postMatches user_blacklist c) (0, list) x hx).2 hc
  | some tags =>
    simp only [blacklist_filter_steps]
    set p1 : Post → Bool := fun c => ! postMatches user_blacklist c with hp1
    set p2 : Post → Bool := fun c => ! postMatches tags.global c with hp2
    set p3 : Post → Bool :=
      fun c => ! postMatches (specialTags tags imageboard) c with hp3
    set c1 := ! user_blacklist.isEmpty with hc1
    set c2 := ! tags.global.isEmpty with hc2
    set c3 := ! (specialTags tags imageboard).isEmpty with hc3
    set final := (condFilterStep c3 p3
      (condFilterStep c2 p2 (condFilterStep c1 p1 (0, list)))).2 with hfin
    have hmem : ∀ x ∈ final,
        (c1 = true → p1 x = true) ∧ (c2 = true → p2 x = true) ∧
          (c3 = true → p3 x = true) := by
      intro x hx
      have h3 := condFilterStep_mem c3 p3
        (condFilterStep c2 p2 (condFilterStep c1 p1 (0, list))) x hx
      have h2 := condFilterStep_mem c2 p2
        (condFilterStep c1 p1 (0, list)) x h3.1
      have h1 := condFilterStep_mem c1 p1 (0, list) x h2.1
      exact ⟨h1.2, h2.2, h3.2⟩
    have e1 : condFilterStep c1 p1 (0, final) = (0, final) :=
      condFilterStep_fixed c1 p1 0 final
        (fun hc x hx => ((hmem x hx).1 hc))
    have e2 : condFilterStep c2 p2 (0, final) = (0, final) :=
      condFilterStep_fixed c2 p2 0 final
        (fun hc x hx => ((hmem x hx).2.1 hc))
    have e3 : condFilterStep c3 p3 (0, final) = (0, final) :=
      condFilterStep_fixed c3 p3 0 final
        (fun hc x hx => ((hmem x hx).2.2 hc))
    rw [e1, e2, e3]

/-- C7: the blacklist filter is idempotent — running it again on its own
retained list (same configuration) removes nothing and leaves the list
unchanged. -/
theorem blacklist_filter_idempotent (disable : Bool)
    (user_blacklist : List String) (gbl : GlobalBlacklist)
    (imageboard : ImageBoards) (list : List Post) :
    blacklist_filter disable user_blacklist gbl imageboard
        (blacklist_filter disable user_blacklist gbl imageboard list).2 =
      (0, (blacklist_filter disable user_blacklist gbl imageboard list).2) := by
  cases disable with
  | true => simp [blacklist_filter]
  | false =>
    simp only [blacklist_filter, Bool.false_eq_true, if_false]
    exact blacklist_filter_steps_idem user_blacklist gbl imageboard list

theorem max_by_key_some_of_acc (l : List Post) (q : Post) :
    ∃ p, List.foldl
      (fun acc p =>
        match acc with
        | none => some p
        | some q => if q.id ≤ p.id then some p else some q)
      (some q) l = some p := by
  induction l generalizing q with
  | nil => exact ⟨q, rfl⟩
  | cons x xs ih =>
    simp only [List.foldl_cons]
    by_cases h : q.id ≤ x.id
    · simpa [h] using ih x
    · simpa [h] using ih q

theorem max_by_key_some (l : List Post) (h : l ≠ []) :
    ∃ p, max_by_key l = some p := by
  cases l with
  | nil => exact absurd rfl h
  | cons x xs =>
    simpa [max_by_key] using max_by_key_some_of_acc xs x

/-- C2: with the resume marker decoded to `M`, the run retains exactly
the posts with `id > M.id`; when every post has `id ≤ M.id` the retained
queue is empty and the run reports that no posts are left, exiting
successfully with zero work. -/
theorem resume_marker_apply (queue : List Post) (M : Post)
    (h : queue ≠ []) :
    (∃ lp, mainAfterExtract queue true ⟨true, DecodeResult.ok M⟩ =
        { outcome :=
            if (queue.filter fun c => M.id < c.id).isEmpty then
              MainOutcome.noPostsExit
            else
              MainOutcome.proceed (queue.filter fun c => M.id < c.id) lp,
          markerDeleted := false }) ∧
      ((∀ p ∈ queue, p.id ≤ M.id) →
        (mainAfterExtract queue true ⟨true, DecodeResult.ok M⟩).outcome =
          MainOutcome.noPostsExit) := by
  obtain ⟨lp, hlp⟩ := max_by_key_some queue h
  constructor
  · refine ⟨lp, ?_⟩
    simp only [mainAfterExtract, hlp, Bool.and_self, if_true]
    by_cases he : (queue.filter fun c => M.id < c.id).isEmpty
    · simp [he]
    · simp [he]
  · intro hall
    have hf : (queue.filter fun c => M.id < c.id) = [] := by
      apply List.filter_eq_nil_iff.mpr
      intro a ha
      simp only [decide_eq_true_eq]
      exact Nat.not_lt.mpr (hall a ha)
    simp [mainAfterExtract, hlp, hf]

theorem resume_marker_apply_witness :
    (mainAfterExtract [examplePost] true
        ⟨true, DecodeResult.ok examplePost⟩).outcome =
      MainOutcome.noPostsExit :=
  (resume_marker_apply [examplePost] examplePost (by decide)).2
    (by decide)

/-- C9: an empty extracted queue makes `main` panic on
`.max_by_key(...).unwrap()` before the "no posts" report is reachable;
the "no posts" success exit happens only for a non-empty extracted queue
that the resume filter emptied. -/
theorem empty_queue_panics :
    (∀ (update : Bool) (marker : MarkerFile),
        (mainAfterExtract [] update marker).outcome =
          MainOutcome.panicked) ∧
      (∀ (posts : List Post) (update : Bool) (marker : MarkerFile),
        (mainAfterExtract posts update marker).outcome =
            MainOutcome.noPostsExit →
          posts ≠ [] ∧ update = true ∧ marker.present = true ∧
            ∃ M, marker.decode = DecodeResult.ok M ∧
              posts.filter (fun c => M.id < c.id) = []) := by
  constructor
  · intro update marker
    rfl
  · intro posts update marker hout
    cases hmx : max_by_key posts with
    | none =>
      simp [mainAfterExtract, hmx] at hout
    | some lp =>
      have hne : posts ≠ [] := by
        intro hnil
        rw [hnil] at hmx
        exact Option.noConfusion hmx
      refine ⟨hne, ?_⟩
      simp only [mainAfterExtract, hmx] at hout
      by_cases hup : (update && marker.present) = true
      · obtain ⟨hu, hp⟩ := Bool.and_eq_true_iff.mp hup
        refine ⟨hu, hp, ?_⟩
        cases hdec : marker.decode with
        | fail => simp [hup, hdec] at hout
        | ok M =>
          refine ⟨M, rfl, ?_⟩
          simp only [hup, if_true, hdec] at hout
          by_cases he : (posts.filter fun c => M.id < c.id).isEmpty
          · exact List.isEmpty_iff.mp he
          · simp [he] at hout
      · rw [if_neg hup] at hout
        have hpe : posts.isEmpty = false := by
          cases posts with
          | nil => exact absurd rfl hne
          | cons a l => rfl
        simp [hpe] at hout

theorem empty_queue_panics_witness :
    [examplePost] ≠ [] ∧ true = true ∧
      (MarkerFile.mk true (DecodeResult.ok examplePost)).present = true ∧
      ∃ M, (MarkerFile.mk true (DecodeResult.ok examplePost)).decode =
          DecodeResult.ok M ∧
        [examplePost].filter (fun c => M.id < c.id) = [] :=
  empty_queue_panics.2 [examplePost] true
    ⟨true, DecodeResult.ok examplePost⟩ (by decide)

/-- C3 (code defect): the credential cache recovers every decode failure
locally (the result is always `Ok`, deleting the stale file on a
decompression failure), but a resume-marker decode failure propagates out
of `main` through `?` and aborts the run with an error, and the stale
marker file is never deleted — the recovery branch written for it is
unreachable. -/
theorem resume_marker_decode_failure_surfaces :
    (∀ file, ∃ r, (read_config_from_fs file).1 = Except.ok r) ∧
      (read_config_from_fs CacheFileState.badCompressed).2 = true ∧
      (mainAfterExtract [examplePost] true
          ⟨true, DecodeResult.fail⟩).outcome = MainOutcome.errored ∧
      (mainAfterExtract [examplePost] true
          ⟨true, DecodeResult.fail⟩).markerDeleted = false := by
  refine ⟨?_, rfl, rfl, rfl⟩
  intro file
  cases file with
  | missing => exact ⟨none, rfl⟩
  | badCompressed => exact ⟨none, rfl⟩
  | badSerialized => exact ⟨none, rfl⟩
  | valid cfg => exact ⟨some cfg, rfl⟩

theorem lookup_removeFile_self (files : List (String × String))
    (path : String) : (removeFile files path).lookup path = none := by
  induction files with
  | nil => rfl
  | cons e es ih =>
    by_cases h : e.1 = path
    · have hrw : removeFile (e :: es) path = removeFile es path := by
        simp [removeFile, List.filter_cons, h]
      rw [hrw]
      exact ih
    · have hrw : removeFile (e :: es) path = e :: removeFile es path := by
        simp [removeFile, List.filter_cons, h]
      rw [hrw]
      have hb : (path == e.1) = false :=
        beq_eq_false_iff_ne.mpr (Ne.symm h)
      simp only [List.lookup, hb]
      exact ih

theorem lookup_map_rewrite_ne (es : List (String × String))
    (path body path' : String) (h : path' ≠ path) :
    (es.map (fun e => if e.1 = path then (e.1, e.2 ++ body) else e)).lookup
      path' = es.lookup path' := by
  induction es with
  | nil => rfl
  | cons e es ih =>
    simp only [List.map_cons]
    by_cases he : e.1 = path
    · rw [if_pos he]
      have hb : (path' == e.1) = false :=
        beq_eq_false_iff_ne.mpr (fun hh => h (hh.trans he))
      simp only [List.lookup, hb]
      exact ih
    · rw [if_neg he]
      cases hbe : (path' == e.1) with
      | true => simp [List.lookup, hbe]
      | false =>
        simp only [List.lookup, hbe]
        exact ih

theorem lookup_concat_single_ne (es : List (String × String))
    (path body path' : String) (h : path' ≠ path) :
    (es ++ [(path, body)]).lookup path' = es.lookup path' := by
  induction es with
  | nil =>
    have hb : (path' == path) = false := beq_eq_false_iff_ne.mpr h
    simp [List.lookup, hb]
  | cons e es ih =>
    cases hbe : (path' == e.1) with
    | true => simp [List.lookup, hbe]
    | false =>
      simp only [List.cons_append, List.lookup, hbe]
      exact ih

theorem lookup_appendFile_ne (files : List (String × String))
    (path body path' : String) (h : path' ≠ path) :
    (appendFile files path body).lookup path' = files.lookup path' := by
  unfold appendFile
  cases hl : files.lookup path with
  | some c => exact lookup_map_rewrite_ne files path body path' h
  | none => exact lookup_concat_single_ne files path body path' h

/-- C5: when the destination file already exists, a matching content hash
skips the network fetch, bumps the already-present (total) counter by
exactly one and leaves the downloaded counter unchanged; a differing hash
deletes the stale file and the fetch proceeds. -/
theorem existing_file_skip (self : Post) (net : String → NetResponse)
    (hash : String → String) (outputDir : String) (name_id : Bool)
    (st : DlState) (content : String)
    (hfile : st.files.lookup (outputDir ++ "/" ++ outputName self name_id) =
      some content) :
    (hash content = self.md5 →
        (self.get net hash outputDir name_id st).2.fetched = st.fetched ∧
        (self.get net hash outputDir name_id st).2.counters.total =
          st.counters.total + 1 ∧
        (self.get net hash outputDir name_id st).2.counters.downloaded =
          st.counters.downloaded ∧
        (self.get net hash outputDir name_id st).1 = Except.ok ()) ∧
      (hash content ≠ self.md5 →
        (self.check_file_exists hash
              (outputDir ++ "/" ++ outputName self name_id) st).2.files.lookup
            (outputDir ++ "/" ++ outputName self name_id) = none ∧
        (self.get net hash outputDir name_id st).2.fetched =
          st.fetched ++ [self.url]) := by
  constructor
  · intro heq
    simp [Post.get, Post.check_file_exists, hfile, heq]
  · intro hne
    refine ⟨?_, ?_⟩
    · simp only [Post.check_file_exists, hfile, if_neg hne]
      exact lookup_removeFile_self st.files _
    · simp only [Post.get, Post.check_file_exists, hfile, if_neg hne]
      simp [Post.fetch]
      split <;> rfl

theorem existing_file_skip_witness :
    (examplePost.get (fun _ => ⟨200, "B"⟩) (fun s => s) "out" false
        { files := [("out/d41d8cd9.png", examplePost.md5)]
          counters := ⟨0, 0, 0⟩, fetched := [] }).2.fetched = [] ∧
      (examplePost.get (fun _ => ⟨200, "B"⟩) (fun s => s) "out" false
        { files := [("out/d41d8cd9.png", examplePost.md5)]
          counters := ⟨0, 0, 0⟩, fetched := [] }).2.counters.total = 0 + 1 ∧
      (examplePost.get (fun _ => ⟨200, "B"⟩) (fun s => s) "out" false
        { files := [("out/d41d8cd9.png", examplePost.md5)]
          counters := ⟨0, 0, 0⟩, fetched := [] }).2.counters.downloaded = 0 ∧
      (examplePost.get (fun _ => ⟨200, "B"⟩) (fun s => s) "out" false
        { files := [("out/d41d8cd9.png", examplePost.md5)]
          counters := ⟨0, 0, 0⟩, fetched := [] }).1 = Except.ok () :=
  (existing_file_skip examplePost (fun _ => ⟨200, "B"⟩) (fun s => s) "out"
    false
    { files := [("out/d41d8cd9.png", examplePost.md5)]
      counters := ⟨0, 0, 0⟩, fetched := [] }
    examplePost.md5 (by decide)).1 rfl

/-- C6: over the loose-mode download fan-out, every post is processed
(main counter advances by the number of posts) but only the posts whose
fetch did not return a 4xx status are counted as downloaded; a 4xx on any
post never stops the remaining posts from being processed, and
`Queue::download` returns `Ok` regardless (per-post results are collected
and discarded by construction). -/
theorem download_loose_counters (net : String → NetResponse)
    (hash : String → String) (posts : List Post) (outputDir : String)
    (name_id : Bool) (st : DlState)
    (habsent : ∀ p ∈ posts,
      st.files.lookup (outputDir ++ "/" ++ outputName p name_id) = none)
    (hnodup :
      (posts.map (fun p => outputDir ++ "/" ++ outputName p name_id)).Nodup) :
    (Queue.download_loose net hash posts outputDir name_id st).counters.main =
        st.counters.main + posts.length ∧
      (Queue.download_loose net hash posts outputDir name_id
          st).counters.downloaded =
        st.counters.downloaded +
          (posts.filter
            (fun p => ! isClientError (net p.url).status)).length := by
  induction posts generalizing st with
  | nil => simp [Queue.download_loose]
  | cons p ps ih =>
    have habs : st.files.lookup (outputDir ++ "/" ++ outputName p name_id) =
        none := habsent p (List.mem_cons_self p ps)
    have hmap : ((p :: ps).map
        (fun q => outputDir ++ "/" ++ outputName q name_id)) =
        (outputDir ++ "/" ++ outputName p name_id) ::
          ps.map (fun q => outputDir ++ "/" ++ outputName q name_id) := rfl
    rw [hmap] at hnodup
    have hnd := List.nodup_cons.mp hnodup
    have hne_out : ∀ q ∈ ps,
        (outputDir ++ "/" ++ outputName q name_id) ≠
          (outputDir ++ "/" ++ outputName p name_id) := by
      intro q hq heq
      exact hnd.1 (heq ▸ List.mem_map_of_mem _ hq)
    simp only [Queue.download_loose, List.foldl_cons] at ih ⊢
    by_cases hce : isClientError (net p.url).status
    · have hstep : (p.get net hash outputDir name_id st).2 =
          { st with
            fetched := st.fetched ++ [p.url]
            counters := { st.counters with main := st.counters.main + 1 } } := by
        simp [Post.get, Post.check_file_exists, habs, Post.fetch, hce]
      rw [hstep]
      have hres := ih
        { st with
          fetched := st.fetched ++ [p.url]
          counters := { st.counters with main := st.counters.main + 1 } }
        (fun q hq => habsent q (List.mem_cons_of_mem p hq)) hnd.2
      refine ⟨?_, ?_⟩
      · rw [hres.1]
        simp only [List.length_cons]
        omega
      · rw [hres.2]
        simp [List.filter_cons, hce]
    · have hstep : (p.get net hash outputDir name_id st).2 =
          { st with
            files := appendFile st.files
              (outputDir ++ "/" ++ outputName p name_id) (net p.url).body
            fetched := st.fetched ++ [p.url]
            counters :=
              { st.counters with
                main := st.counters.main + 1
                total := st.counters.total + 1
                downloaded := st.counters.downloaded + 1 } } := by
        simp [Post.get, Post.check_file_exists, habs, Post.fetch, hce]
      rw [hstep]
      have hres := ih
        { st with
          files := appendFile st.files
            (outputDir ++ "/" ++ outputName p name_id) (net p.url).body
          fetched := st.fetched ++ [p.url]
          counters :=
            { st.counters with
              main := st.counters.main + 1
              total := st.counters.total + 1
              downloaded := st.counters.downloaded + 1 } }
        (fun q hq => by
          have := habsent q (List.mem_cons_of_mem p hq)
          simpa [lookup_appendFile_ne st.files
            (outputDir ++ "/" ++ outputName p name_id) (net p.url).body
            (outputDir ++ "/" ++ outputName q name_id)
            (hne_out q hq)] using this) hnd.2
      refine ⟨?_, ?_⟩
      · rw [hres.1]
        simp only [List.length_cons]
        omega
      · rw [hres.2]
        have hfc : ((p :: ps).filter
            (fun q => ! isClientError (net q.url).status)) =
            p :: ps.filter (fun q => ! isClientError (net q.url).status) := by
          simp [List.filter_cons, hce]
        rw [hfc]
        simp only [List.length_cons]
        omega

theorem download_loose_counters_witness :
    (Queue.download_loose
        (fun u => if u = notFoundPost.url then ⟨404, ""⟩ else ⟨200, "B"⟩)
        (fun s => s) [examplePost, notFoundPost] "out" false
        { files := [], counters := ⟨0, 0, 0⟩, fetched := [] }).counters.main =
        0 + 2 ∧
      (Queue.download_loose
          (fun u => if u = notFoundPost.url then ⟨404, ""⟩ else ⟨200, "B"⟩)
          (fun s => s) [examplePost, notFoundPost] "out" false
          { files := [], counters := ⟨0, 0, 0⟩,
            fetched := [] }).counters.downloaded =
        0 + ([examplePost, notFoundPost].filter
          (fun p => ! isClientError
            ((fun u => if u = notFoundPost.url then
                (⟨404, ""⟩ : NetResponse)
              else ⟨200, "B"⟩) p.url).status)).length := by
  have h := download_loose_counters
    (fun u => if u = notFoundPost.url then ⟨404, ""⟩ else ⟨200, "B"⟩)
    (fun s => s) [examplePost, notFoundPost] "out" false
    { files := [], counters := ⟨0, 0, 0⟩, fetched := [] }
    (by decide) (by decide)
  simpa using h

/-- C4 counterexample: the legacy Gelbooru `full_search` returns pages in
fetch order without sorting, so a page whose items arrive in ascending id
order yields a `PostQueue` that is not strictly descending. -/
theorem gelbooru_full_search_unsorted :
    ¬ strictlyDescendingById
      (GelbooruExtractor.full_search
        (fun n => if n = 0 then [lowPost, highPost] else [])
        1000 none none).1 := by
  intro h
  have hres : (GelbooruExtractor.full_search
      (fun n => if n = 0 then [lowPost, highPost] else [])
      1000 none none).1 = [lowPost, highPost] := rfl
  rw [hres] at h
  have h1 := (List.pairwise_cons.mp h).1 highPost (List.mem_cons_self _ _)
  exact absurd h1 (by decide)

/-- C4 (amended): the Danbooru extractor's `full_search` output is sorted
in non-increasing `id` order, and strictly descending whenever its ids
are pairwise distinct; the legacy Gelbooru `full_search` does not sort
(see the counterexample). -/
theorem danbooru_full_search_sorted (fetch : Nat → List Post)
    (filt : List Post → Nat × List Post) (useFilter : Bool)
    (start_page limit : Option Nat) :
    List.Pairwise (fun a b => b.id ≤ a.id)
        (DanbooruExtractor.full_search fetch filt useFilter start_page
          limit).1 ∧
      (((DanbooruExtractor.full_search fetch filt useFilter start_page
            limit).1.map Post.id).Nodup →
        strictlyDescendingById
          (DanbooruExtractor.full_search fetch filt useFilter start_page
            limit).1) := by
  have hsorted : List.Pairwise (fun a b => b.id ≤ a.id)
      (DanbooruExtractor.full_search fetch filt useFilter start_page
        limit).1 := by
    have h := List.sorted_insertionSort postIdLe
      (danbooru_full_search_loop fetch filt useFilter start_page limit
        1 [] 0 0 100).1
    exact List.pairwise_reverse.mpr h
  refine ⟨hsorted, fun hnodup => ?_⟩
  have hne : List.Pairwise (fun a b : Post => a.id ≠ b.id)
      (DanbooruExtractor.full_search fetch filt useFilter start_page
        limit).1 := by
    have := (List.pairwise_map.mp hnodup)
    exact this
  have hand := hsorted.and hne
  exact hand.imp (fun h => Nat.lt_of_le_of_ne h.1 (fun he => h.2 he.symm))

theorem danbooru_loop_pages_le (fetch : Nat → List Post)
    (filt : List Post → Nat × List Post) (useFilter : Bool)
    (start_page limit : Option Nat) :
    ∀ (fuel page : Nat) (fvec : List Post) (removed pages : Nat),
      1 ≤ page → page ≤ 100 →
      (danbooru_full_search_loop fetch filt useFilter start_page limit
        page fvec removed pages fuel).2.2 ≤ pages + (101 - page) := by
  intro fuel
  induction fuel with
  | zero =>
    intro page fvec removed pages h1 h100
    simp only [danbooru_full_search_loop]
    omega
  | succ fuel ih =>
    intro page fvec removed pages h1 h100
    simp only [danbooru_full_search_loop]
    by_cases hz : (fetch (pagePosition start_page page)).length = 0
    · rw [if_pos hz]
      show pages + 1 ≤ pages + (101 - page)
      omega
    · rw [if_neg hz]
      generalize (if useFilter = true then
        filt (fetch (pagePosition start_page page))
      else
        ((0 : Nat), fetch (pagePosition start_page page))) = rl
      by_cases hlim : limitReached limit (fvec ++ rl.2).length = true
      · rw [if_pos hlim]
        show pages + 1 ≤ pages + (101 - page)
        omega
      · rw [if_neg hlim]
        by_cases hp : page = 100
        · rw [if_pos hp]
          show pages + 1 ≤ pages + (101 - page)
          omega
        · rw [if_neg hp]
          have hrec := ih (page + 1) (fvec ++ rl.2) (removed + rl.1)
            (pages + 1) (by omega) (by omega)
          omega

theorem e621_loop_pages_le (fetch : Nat → List Post)
    (filt : List Post → Nat × List Post) (useFilter : Bool)
    (pool : Option (Nat → Nat)) (start_page limit : Option Nat) :
    ∀ (fuel page : Nat) (has_posts : Bool) (total_sent : Nat)
      (sent : List Post) (removed pages : Nat),
      1 ≤ page → page ≤ 100 →
      (e621_async_fetch_loop fetch filt useFilter pool start_page limit
        page has_posts total_sent sent removed pages fuel).pages ≤
        pages + (101 - page) := by
  intro fuel
  induction fuel with
  | zero =>
    intro page has_posts total_sent sent removed pages h1 h100
    simp only [e621_async_fetch_loop]
    omega
  | succ fuel ih =>
    intro page has_posts total_sent sent removed pages h1 h100
    simp only [e621_async_fetch_loop]
    by_cases hz : (fetch (pagePosition start_page page)).length = 0
    · rw [if_pos hz]
      by_cases hhp : (!has_posts) = true
      · rw [if_pos hhp]
        show pages + 1 ≤ pages + (101 - page)
        omega
      · rw [if_neg hhp]
        show pages + 1 ≤ pages + (101 - page)
        omega
    · rw [if_neg hz]
      generalize (if useFilter = true then
        filt (fetch (pagePosition start_page page))
      else
        ((0 : Nat), fetch (pagePosition start_page page))) = rl
      generalize e621_send_posts limit pool rl.2 sent total_sent = ts
      by_cases hlim : limitReached limit ts.2 = true
      · rw [if_pos hlim]
        show pages + 1 ≤ pages + (101 - page)
        omega
      · rw [if_neg hlim]
        by_cases hp : page = 100
        · rw [if_pos hp]
          show pages + 1 ≤ pages + (101 - page)
          omega
        · rw [if_neg hp]
          have hrec := ih (page + 1)
            (if (!has_posts && !rl.2.isEmpty) = true then true else has_posts)
            ts.2 ts.1 (removed + rl.1) (pages + 1) (by omega) (by omega)
          omega

/-- C8: the pagination loops of `DanbooruExtractor::full_search` and
`E621Extractor::async_fetch` perform at most 100 page fetches, for every
fetch function, filter, option set and any amount of fuel — the bound
comes from the `page == 100` break, not from the fuel. -/
theorem pagination_page_cap :
    (∀ (fetch : Nat → List Post) (filt : List Post → Nat × List Post)
      (useFilter : Bool) (start_page limit : Option Nat) (fuel : Nat),
        (danbooru_full_search_loop fetch filt useFilter start_page limit
          1 [] 0 0 fuel).2.2 ≤ 100) ∧
      (∀ (fetch : Nat → List Post) (filt : List Post → Nat × List Post)
        (useFilter : Bool) (pool : Option (Nat → Nat))
        (start_page limit : Option Nat) (fuel : Nat),
          (e621_async_fetch_loop fetch filt useFilter pool start_page
            limit 1 false 0 [] 0 0 fuel).pages ≤ 100) := by
  constructor
  · intro fetch filt useFilter start_page limit fuel
    have h := danbooru_loop_pages_le fetch filt useFilter start_page limit
      fuel 1 [] 0 0 (by omega) (by omega)
    omega
  · intro fetch filt useFilter pool start_page limit fuel
    have h := e621_loop_pages_le fetch filt useFilter pool start_page limit
      fuel 1 false 0 [] 0 0 (by omega) (by omega)
    omega

/-- C10: the Danbooru item mapping sends the raw rating string "s" to
`Rating::Questionable` (never `Safe`), and every other rating string
through the generic parser. -/
theorem danbooru_rating_s_questionable (from_str : String → Rating)
    (c : DanbooruRawItem) :
    (c.rating = "s" →
        (danbooru_map_item from_str c).rating = Rating.questionable ∧
          (danbooru_map_item from_str c).rating ≠ Rating.safe) ∧
      (c.rating ≠ "s" →
        (danbooru_map_item from_str c).rating = from_str c.rating) := by
  constructor
  · intro hs
    simp [danbooru_map_item, hs]
  · intro hs
    simp [danbooru_map_item, hs]

theorem danbooru_rating_s_questionable_witness :
    (danbooru_map_item (fun _ => Rating.safe) rawItemS).rating =
        Rating.questionable ∧
      (danbooru_map_item (fun _ => Rating.safe) rawItemS).rating ≠
        Rating.safe :=
  (danbooru_rating_s_questionable (fun _ => Rating.safe) rawItemS).1 rfl

theorem danbooru_full_search_sorted_witness :
    List.Pairwise (fun a b => b.id ≤ a.id)
        (DanbooruExtractor.full_search
          (fun n => if n = 1 then [lowPost, highPost] else [])
          (fun l => (0, l)) false none none).1 ∧
      strictlyDescendingById
        (DanbooruExtractor.full_search
          (fun n => if n = 1 then [lowPost, highPost] else [])
          (fun l => (0, l)) false none none).1 := by
  have h := danbooru_full_search_sorted
    (fun n => if n = 1 then [lowPost, highPost] else [])
    (fun l => (0, l)) false none none
  exact ⟨h.1, h.2 (by decide)⟩

end ImageboardDownloader
